import Mathlib

/-!
Shallow embedding of the interest-calculator component in
`src/src/app.component.ts`.

Numbers are modelled as rationals (`ℚ`); `Math.pow` is an abstract
function parameter `powFn : ℚ → ℚ → ℚ`, since the claims about the
compound branch are symbolic in the power function.  Nullable inputs
(`number | null`) are `Option ℚ`.  The `localStorage` slot is modelled
as `Option StoredValue`, where a stored value is either a well-formed
serialized history or malformed data; the Angular `effect` that writes
the history to storage on every change is folded into `setHistory`.
The `setTimeout` body of `calculate` is modelled atomically (the delay
is a presentation concern per the component's comment "Simulate
calculation time").
-/

/-- Time unit selector, the `'years' | 'months'` union in the source. -/
inductive TimeUnit
  | years
  | months
deriving DecidableEq, Repr

/-- Compound-interest detail `{ interest: number; total: number }`. -/
structure CompoundDetail where
  interest : ℚ
  total : ℚ
deriving DecidableEq, Repr

/-- Model of the `CalculationResult` interface (lines 6-16). -/
structure CalculationResult where
  principal : ℚ
  rate : ℚ
  time : ℚ
  timeUnit : TimeUnit
  compoundFrequency : ℚ
  simpleInterest : ℚ
  compoundDetail : CompoundDetail
  totalSimple : ℚ
  timestamp : ℤ
deriving DecidableEq, Repr

/-- Content of the `interestCalcHistory` slot in `localStorage`: either a
well-formed JSON serialization of a history list, or malformed data that
`JSON.parse` throws on. -/
inductive StoredValue
  | good : List CalculationResult → StoredValue
  | malformed : StoredValue
deriving DecidableEq

/-- Model of `JSON.parse` on a stored slot value: a good serialization
parses back to the serialized list, malformed data fails. -/
def parseHistory : StoredValue → Except Unit (List CalculationResult)
  | StoredValue.good l => Except.ok l
  | StoredValue.malformed => Except.error ()

/-- State of `AppComponent`: the input signals, the UI state signals, the
result and history signals, and the `localStorage` slot (`none` = absent). -/
structure AppState where
  principal : Option ℚ
  rate : Option ℚ
  time : Option ℚ
  timeUnit : TimeUnit
  compoundFrequency : ℚ
  isLoading : Bool
  activeTooltip : Option String
  calculationResult : Option CalculationResult
  calculationHistory : List CalculationResult
  storage : Option StoredValue
deriving DecidableEq

/-- Initial signal values (lines 25-37) with an absent storage slot. -/
def initState : AppState where
  principal := some 10000
  rate := some 5
  time := some 10
  timeUnit := TimeUnit.years
  compoundFrequency := 1
  isLoading := false
  activeTooltip := none
  calculationResult := none
  calculationHistory := []
  storage := none

/-- Setting the `calculationHistory` signal together with the `effect`
(lines 60-66) that serializes the whole history into the slot. -/
def setHistory (l : List CalculationResult) (s : AppState) : AppState :=
  { s with calculationHistory := l, storage := some (StoredValue.good l) }

/-- Model of `saveToHistory` (lines 157-159):
`[result, ...history.slice(0, 9)]`, then the persistence effect. -/
def saveToHistory (result : CalculationResult) (s : AppState) : AppState :=
  setHistory (result :: s.calculationHistory.take 9) s

/-- Model of `clearHistory` (lines 171-173). -/
def clearHistory (s : AppState) : AppState :=
  setHistory [] s

/-- Model of `loadHistoryFromStorage` (lines 69-79): an absent slot leaves
the history signal untouched; a present slot is parsed, and a parse
failure is caught and the history set to `[]`. -/
def loadHistoryFromStorage (s : AppState) : AppState :=
  match s.storage with
  | none => s
  | some v =>
    match parseHistory v with
    | Except.ok l => setHistory l s
    | Except.error _ => setHistory [] s

/-- Time normalization (line 118):
`this.timeUnit() === 'years' ? t : t / 12`. -/
def timeInYears (u : TimeUnit) (t : ℚ) : ℚ :=
  match u with
  | TimeUnit.years => t
  | TimeUnit.months => t / 12

/-- Body of the `setTimeout` callback in `calculate` (lines 117-147):
the pure computation of the result record, with `powFn` standing for
`Math.pow` and `now` for `Date.now()`. -/
def computeResult (powFn : ℚ → ℚ → ℚ) (now : ℤ) (p r t : ℚ) (u : TimeUnit)
    (n : ℚ) : CalculationResult :=
  let tY := timeInYears u t
  let rateDecimal := r / 100
  let simpleInterest := p * rateDecimal * tY
  let totalSimple := p + simpleInterest
  let cd : CompoundDetail :=
    if 0 < n then
      let totalCompound := p * powFn (1 + rateDecimal / n) (n * tY)
      { interest := totalCompound - p, total := totalCompound }
    else
      { interest := 0, total := p + simpleInterest }
  { principal := p, rate := r, time := t, timeUnit := u,
    compoundFrequency := n, simpleInterest := simpleInterest,
    compoundDetail := cd, totalSimple := totalSimple, timestamp := now }

/-- Model of `calculate` (lines 104-155).  The guard on line 110 returns
early with the state untouched; otherwise the timeout body runs: the
result signal is set, `isLoading` ends false, and the result is saved to
history. -/
def calculate (powFn : ℚ → ℚ → ℚ) (now : ℤ) (s : AppState) : AppState :=
  match s.principal, s.rate, s.time with
  | some p, some r, some t =>
    if p ≤ 0 ∨ r ≤ 0 ∨ t ≤ 0 then s
    else
      let result := computeResult powFn now p r t s.timeUnit s.compoundFrequency
      saveToHistory result
        { s with isLoading := false, calculationResult := some result }
  | _, _, _ => s

/-- The guard condition of line 110: true exactly when `calculate`
returns without computing. -/
def rejectsInput (s : AppState) : Bool :=
  match s.principal, s.rate, s.time with
  | some p, some r, some t => decide (p ≤ 0) || decide (r ≤ 0) || decide (t ≤ 0)
  | _, _, _ => true

/-- History-store operations reachable from the UI: record a result
(`saveToHistory`), clear, and reload from storage. -/
inductive HistoryOp
  | record : CalculationResult → HistoryOp
  | clear : HistoryOp
  | load : HistoryOp
deriving DecidableEq

/-- Applying one history operation to the component state. -/
def applyOp (s : AppState) (op : HistoryOp) : AppState :=
  match op with
  | HistoryOp.record r => saveToHistory r s
  | HistoryOp.clear => clearHistory s
  | HistoryOp.load => loadHistoryFromStorage s

/-- Applying a sequence of history operations, oldest first. -/
def applyOps (s : AppState) (ops : List HistoryOp) : AppState :=
  ops.foldl applyOp s

/-- Shared lemma: when the guard of line 110 fires, `calculate` returns
the state unchanged. -/
theorem calculate_of_rejects (powFn : ℚ → ℚ → ℚ) (now : ℤ) (s : AppState)
    (h : rejectsInput s = true) : calculate powFn now s = s := by
  rcases hp : s.principal with _ | p
  · simp [calculate, hp]
  rcases hr : s.rate with _ | r
  · simp [calculate, hp, hr]
  rcases ht : s.time with _ | t
  · simp [calculate, hp, hr, ht]
  simp only [rejectsInput, hp, hr, ht, Bool.or_eq_true, decide_eq_true_eq] at h
  simp only [calculate, hp, hr, ht]
  rw [if_pos]
  tauto

/-- Shared lemma: on valid inputs `calculate` runs the timeout body. -/
theorem calculate_of_valid (powFn : ℚ → ℚ → ℚ) (now : ℤ) (s : AppState)
    (p r t : ℚ) (hp : s.principal = some p) (hr : s.rate = some r)
    (ht : s.time = some t) (hp0 : 0 < p) (hr0 : 0 < r) (ht0 : 0 < t) :
    calculate powFn now s =
      saveToHistory (computeResult powFn now p r t s.timeUnit s.compoundFrequency)
        { s with isLoading := false,
                 calculationResult :=
                   some (computeResult powFn now p r t s.timeUnit s.compoundFrequency) } := by
  simp only [calculate, hp, hr, ht]
  rw [if_neg]
  push_neg
  exact ⟨hp0, hr0, ht0⟩

/-- Shared lemma: the result signal after a valid `calculate`. -/
theorem calculate_result_of_valid (powFn : ℚ → ℚ → ℚ) (now : ℤ) (s : AppState)
    (p r t : ℚ) (hp : s.principal = some p) (hr : s.rate = some r)
    (ht : s.time = some t) (hp0 : 0 < p) (hr0 : 0 < r) (ht0 : 0 < t) :
    (calculate powFn now s).calculationResult =
      some (computeResult powFn now p r t s.timeUnit s.compoundFrequency) := by
  rw [calculate_of_valid powFn now s p r t hp hr ht hp0 hr0 ht0]
  rfl

/-- Boundedness invariant: the in-memory history has at most 10 entries
and so does any well-formed list in the storage slot. -/
def stateBounded (s : AppState) : Prop :=
  s.calculationHistory.length ≤ 10 ∧
    ∀ l : List CalculationResult, s.storage = some (StoredValue.good l) →
      l.length ≤ 10

/-- Shared lemma: every history operation preserves boundedness. -/
theorem applyOp_stateBounded (s : AppState) (op : HistoryOp)
    (h : stateBounded s) : stateBounded (applyOp s op) := by
  rcases h with ⟨hlen, hstore⟩
  cases op with
  | record r =>
    have htake : (s.calculationHistory.take 9).length ≤ 9 :=
      List.length_take_le 9 s.calculationHistory
    constructor
    · simp only [applyOp, saveToHistory, setHistory, List.length_cons]
      omega
    · intro l hl
      simp only [applyOp, saveToHistory, setHistory, Option.some.injEq,
        StoredValue.good.injEq] at hl
      subst hl
      simp only [List.length_cons]
      omega
  | clear =>
    constructor
    · simp [applyOp, clearHistory, setHistory]
    · intro l hl
      simp only [applyOp, clearHistory, setHistory, Option.some.injEq,
        StoredValue.good.injEq] at hl
      subst hl
      simp
  | load =>
    rcases hs : s.storage with _ | v
    · simpa [applyOp, loadHistoryFromStorage, hs] using ⟨hlen, hstore⟩
    rcases v with l | _
    · have hl : l.length ≤ 10 := hstore l hs
      constructor
      · simpa [applyOp, loadHistoryFromStorage, hs, parseHistory, setHistory] using hl
      · intro m hm
        simp only [applyOp, loadHistoryFromStorage, hs, parseHistory, setHistory,
          Option.some.injEq, StoredValue.good.injEq] at hm
        subst hm
        exact hl
    · constructor
      · simp [applyOp, loadHistoryFromStorage, hs, parseHistory, setHistory]
      · intro m hm
        simp only [applyOp, loadHistoryFromStorage, hs, parseHistory, setHistory,
          Option.some.injEq, StoredValue.good.injEq] at hm
        subst hm
        simp

/-- Shared lemma: boundedness holds along any operation sequence. -/
theorem applyOps_stateBounded (s : AppState) (ops : List HistoryOp)
    (h : stateBounded s) : stateBounded (applyOps s ops) := by
  induction ops generalizing s with
  | nil => exact h
  | cons op ops ih => exact ih (applyOp s op) (applyOp_stateBounded s op h)

/-- Shared lemma: `record` and `clear` leave the slot holding exactly the
serialized in-memory history. -/
theorem applyOp_storage_sync (s : AppState) (op : HistoryOp)
    (hop : op ≠ HistoryOp.load) :
    (applyOp s op).storage =
      some (StoredValue.good (applyOp s op).calculationHistory) := by
  cases op with
  | record r => rfl
  | clear => rfl
  | load => exact absurd rfl hop

/-- Shared lemma: after a nonempty sequence of mutations (no loads), the
slot holds exactly the serialized in-memory history. -/
theorem applyOps_storage_sync (s : AppState) (ops : List HistoryOp)
    (hne : ops ≠ []) (hmut : ∀ op ∈ ops, op ≠ HistoryOp.load) :
    (applyOps s ops).storage =
      some (StoredValue.good (applyOps s ops).calculationHistory) := by
  induction ops generalizing s with
  | nil => exact absurd rfl hne
  | cons op ops ih =>
    rcases ops with _ | ⟨op2, ops⟩
    · simpa [applyOps] using
        applyOp_storage_sync s op (hmut op (List.mem_singleton.mpr rfl))
    · have h1 : (op2 :: ops) ≠ [] := by simp
      have h2 : ∀ o ∈ op2 :: ops, o ≠ HistoryOp.load := by
        intro o ho
        exact hmut o (List.mem_cons_of_mem op ho)
      simpa [applyOps] using ih (applyOp s op) h1 h2

/-- Shared lemma: the implication "absent slot, hence empty history" is
preserved along any operation sequence. -/
theorem applyOps_storage_none_aux (ops : List HistoryOp) (s : AppState)
    (hs : s.storage = none → s.calculationHistory = []) :
    (applyOps s ops).storage = none → (applyOps s ops).calculationHistory = [] := by
  induction ops generalizing s with
  | nil => exact hs
  | cons op ops ih =>
    refine ih (applyOp s op) ?_
    cases op with
    | record r => intro hc; simp [applyOp, saveToHistory, setHistory] at hc
    | clear => intro hc; simp [applyOp, clearHistory, setHistory] at hc
    | load =>
      rcases hst : s.storage with _ | v
      · intro _; simpa [applyOp, loadHistoryFromStorage, hst] using hs hst
      · rcases v with l | _
        · intro hc
          simp [applyOp, loadHistoryFromStorage, hst, parseHistory, setHistory] at hc
        · intro hc
          simp [applyOp, loadHistoryFromStorage, hst, parseHistory, setHistory] at hc

/-- Shared lemma: from startup, an absent slot means the history is empty. -/
theorem applyOps_storage_none (ops : List HistoryOp)
    (h : (applyOps initState ops).storage = none) :
    (applyOps initState ops).calculationHistory = [] :=
  applyOps_storage_none_aux ops initState (fun _ => rfl) h

/-- C1: for every input with principal, rate and time present and positive,
any time unit and any nonnegative compound frequency, `calculate` produces
a result; for every input with principal, rate or time absent (`null`) or
nonpositive, `calculate` produces no result and raises no error, returning
the state unchanged (the function is total, so no exception is possible). -/
theorem claim1_compute_accepts_valid_rejects_invalid :
    (∀ (powFn : ℚ → ℚ → ℚ) (now : ℤ) (s : AppState) (p r t : ℚ),
      s.principal = some p → s.rate = some r → s.time = some t →
      0 < p → 0 < r → 0 < t → 0 ≤ s.compoundFrequency →
      ((calculate powFn now s).calculationResult).isSome = true) ∧
    (∀ (powFn : ℚ → ℚ → ℚ) (now : ℤ) (s : AppState),
      rejectsInput s = true → calculate powFn now s = s) := by
  constructor
  · intro powFn now s p r t hp hr ht hp0 hr0 ht0 _
    rw [calculate_result_of_valid powFn now s p r t hp hr ht hp0 hr0 ht0]
    rfl
  · intro powFn now s h
    exact calculate_of_rejects powFn now s h

/-- Witness for C1: the default inputs are accepted; principal 0 is
rejected with the state unchanged. -/
theorem claim1_witness :
    ((calculate (fun a b => a * b) 0 initState).calculationResult).isSome = true ∧
    calculate (fun a b => a * b) 0 { initState with principal := some 0 } =
      { initState with principal := some 0 } :=
  ⟨claim1_compute_accepts_valid_rejects_invalid.1 (fun a b => a * b) 0 initState
      10000 5 10 rfl rfl rfl (by norm_num) (by norm_num) (by norm_num)
      (by norm_num [initState]),
   claim1_compute_accepts_valid_rejects_invalid.2 (fun a b => a * b) 0
      { initState with principal := some 0 } (by decide)⟩

/-- C2: for every valid input with compound frequency `n > 0`, the computed
result has `compoundDetail.total = p * powFn (1 + (r/100)/n) (n * timeInYears)`
and `compoundDetail.interest = compoundDetail.total - p`, with `timeInYears`
the normalized time. -/
theorem claim2_compound_formula
    (powFn : ℚ → ℚ → ℚ) (now : ℤ) (s : AppState) (p r t : ℚ)
    (hp : s.principal = some p) (hr : s.rate = some r) (ht : s.time = some t)
    (hp0 : 0 < p) (hr0 : 0 < r) (ht0 : 0 < t)
    (hn : 0 < s.compoundFrequency) :
    (calculate powFn now s).calculationResult =
      some (computeResult powFn now p r t s.timeUnit s.compoundFrequency) ∧
    (computeResult powFn now p r t s.timeUnit s.compoundFrequency).compoundDetail.total =
      p * powFn (1 + (r / 100) / s.compoundFrequency)
        (s.compoundFrequency * timeInYears s.timeUnit t) ∧
    (computeResult powFn now p r t s.timeUnit s.compoundFrequency).compoundDetail.interest =
      (computeResult powFn now p r t s.timeUnit s.compoundFrequency).compoundDetail.total
        - p := by
  refine ⟨calculate_result_of_valid powFn now s p r t hp hr ht hp0 hr0 ht0, ?_, ?_⟩
  · simp [computeResult, hn]
  · simp [computeResult, hn]

/-- Witness for C2 at the default inputs (frequency 1). -/
theorem claim2_witness :
    (calculate (fun a b => a * b) 0 initState).calculationResult =
      some (computeResult (fun a b => a * b) 0 10000 5 10
        initState.timeUnit initState.compoundFrequency) ∧
    (computeResult (fun a b => a * b) 0 10000 5 10
        initState.timeUnit initState.compoundFrequency).compoundDetail.total =
      10000 * (fun a b => a * b) (1 + (5 / 100) / initState.compoundFrequency)
        (initState.compoundFrequency * timeInYears initState.timeUnit 10) ∧
    (computeResult (fun a b => a * b) 0 10000 5 10
        initState.timeUnit initState.compoundFrequency).compoundDetail.interest =
      (computeResult (fun a b => a * b) 0 10000 5 10
        initState.timeUnit initState.compoundFrequency).compoundDetail.total - 10000 :=
  claim2_compound_formula (fun a b => a * b) 0 initState 10000 5 10 rfl rfl rfl
    (by norm_num) (by norm_num) (by norm_num) (by norm_num [initState])

/-- C3: for every valid input the computed result has
`simpleInterest = p * (r/100) * timeInYears` and
`totalSimple = p + simpleInterest`, where the normalized time is `t / 12`
for months and `t` for years. -/
theorem claim3_simple_formula
    (powFn : ℚ → ℚ → ℚ) (now : ℤ) (s : AppState) (p r t : ℚ)
    (hp : s.principal = some p) (hr : s.rate = some r) (ht : s.time = some t)
    (hp0 : 0 < p) (hr0 : 0 < r) (ht0 : 0 < t) :
    (calculate powFn now s).calculationResult =
      some (computeResult powFn now p r t s.timeUnit s.compoundFrequency) ∧
    (computeResult powFn now p r t s.timeUnit s.compoundFrequency).simpleInterest =
      p * (r / 100) * timeInYears s.timeUnit t ∧
    (computeResult powFn now p r t s.timeUnit s.compoundFrequency).totalSimple =
      p + (computeResult powFn now p r t s.timeUnit s.compoundFrequency).simpleInterest ∧
    timeInYears TimeUnit.months t = t / 12 ∧
    timeInYears TimeUnit.years t = t := by
  exact ⟨calculate_result_of_valid powFn now s p r t hp hr ht hp0 hr0 ht0,
    rfl, rfl, rfl, rfl⟩

/-- Witness for C3 at the default inputs. -/
theorem claim3_witness :
    (calculate (fun a b => a * b) 0 initState).calculationResult =
      some (computeResult (fun a b => a * b) 0 10000 5 10
        initState.timeUnit initState.compoundFrequency) ∧
    (computeResult (fun a b => a * b) 0 10000 5 10
        initState.timeUnit initState.compoundFrequency).simpleInterest =
      10000 * (5 / 100) * timeInYears initState.timeUnit 10 ∧
    (computeResult (fun a b => a * b) 0 10000 5 10
        initState.timeUnit initState.compoundFrequency).totalSimple =
      10000 + (computeResult (fun a b => a * b) 0 10000 5 10
        initState.timeUnit initState.compoundFrequency).simpleInterest ∧
    timeInYears TimeUnit.months 10 = 10 / 12 ∧
    timeInYears TimeUnit.years 10 = 10 :=
  claim3_simple_formula (fun a b => a * b) 0 initState 10000 5 10 rfl rfl rfl
    (by norm_num) (by norm_num) (by norm_num)

/-- C4: for every valid input with compound frequency 0, the computed
result has `compoundDetail.interest = 0` and
`compoundDetail.total = totalSimple`. -/
theorem claim4_simple_only_branch
    (powFn : ℚ → ℚ → ℚ) (now : ℤ) (s : AppState) (p r t : ℚ)
    (hp : s.principal = some p) (hr : s.rate = some r) (ht : s.time = some t)
    (hp0 : 0 < p) (hr0 : 0 < r) (ht0 : 0 < t)
    (hn : s.compoundFrequency = 0) :
    (calculate powFn now s).calculationResult =
      some (computeResult powFn now p r t s.timeUnit s.compoundFrequency) ∧
    (computeResult powFn now p r t s.timeUnit s.compoundFrequency).compoundDetail.interest
      = 0 ∧
    (computeResult powFn now p r t s.timeUnit s.compoundFrequency).compoundDetail.total =
      (computeResult powFn now p r t s.timeUnit s.compoundFrequency).totalSimple := by
  refine ⟨calculate_result_of_valid powFn now s p r t hp hr ht hp0 hr0 ht0, ?_, ?_⟩
  · simp [computeResult, hn]
  · simp [computeResult, hn]

/-- Witness for C4 with frequency set to 0. -/
theorem claim4_witness :
    (calculate (fun a b => a * b) 0
        { initState with compoundFrequency := 0 }).calculationResult =
      some (computeResult (fun a b => a * b) 0 10000 5 10
        { initState with compoundFrequency := 0 }.timeUnit
        { initState with compoundFrequency := 0 }.compoundFrequency) ∧
    (computeResult (fun a b => a * b) 0 10000 5 10
        { initState with compoundFrequency := 0 }.timeUnit
        { initState with compoundFrequency := 0 }.compoundFrequency).compoundDetail.interest
      = 0 ∧
    (computeResult (fun a b => a * b) 0 10000 5 10
        { initState with compoundFrequency := 0 }.timeUnit
        { initState with compoundFrequency := 0 }.compoundFrequency).compoundDetail.total =
      (computeResult (fun a b => a * b) 0 10000 5 10
        { initState with compoundFrequency := 0 }.timeUnit
        { initState with compoundFrequency := 0 }.compoundFrequency).totalSimple :=
  claim4_simple_only_branch (fun a b => a * b) 0
    { initState with compoundFrequency := 0 } 10000 5 10 rfl rfl rfl
    (by norm_num) (by norm_num) (by norm_num) rfl

/-- C5: starting from the initial state, the history length never exceeds
10 after any sequence of record, clear and load operations; and recording
twelve results R1..R12 in order from the empty history leaves exactly
[R12, R11, ..., R3], newest first, with the oldest two evicted. -/
theorem claim5_history_bound_and_eviction :
    (∀ ops : List HistoryOp,
      ((applyOps initState ops).calculationHistory).length ≤ 10) ∧
    (∀ r1 r2 r3 r4 r5 r6 r7 r8 r9 r10 r11 r12 : CalculationResult,
      (applyOps initState
        [HistoryOp.record r1, HistoryOp.record r2, HistoryOp.record r3,
         HistoryOp.record r4, HistoryOp.record r5, HistoryOp.record r6,
         HistoryOp.record r7, HistoryOp.record r8, HistoryOp.record r9,
         HistoryOp.record r10, HistoryOp.record r11,
         HistoryOp.record r12]).calculationHistory =
        [r12, r11, r10, r9, r8, r7, r6, r5, r4, r3]) := by
  constructor
  · intro ops
    refine (applyOps_stateBounded initState ops ⟨by simp [initState], ?_⟩).1
    intro l hl
    simp [initState] at hl
  · intro r1 r2 r3 r4 r5 r6 r7 r8 r9 r10 r11 r12
    rfl

/-- C6: with the persistence effect in force, after any nonempty sequence
of record and clear operations, reloading from storage reproduces exactly
the in-memory history as it stood after the last mutation. -/
theorem claim6_load_roundtrip (s : AppState) (ops : List HistoryOp)
    (hne : ops ≠ []) (hmut : ∀ op ∈ ops, op ≠ HistoryOp.load) :
    (loadHistoryFromStorage (applyOps s ops)).calculationHistory =
      (applyOps s ops).calculationHistory := by
  have h := applyOps_storage_sync s ops hne hmut
  simp [loadHistoryFromStorage, h, parseHistory, setHistory]

/-- Witness for C6: a single clear from the initial state. -/
theorem claim6_witness :
    (loadHistoryFromStorage (applyOps initState [HistoryOp.clear])).calculationHistory =
      (applyOps initState [HistoryOp.clear]).calculationHistory :=
  claim6_load_roundtrip initState [HistoryOp.clear] (by decide) (by decide)

/-- C7: reloading yields the empty history whenever the slot is absent in
any state reachable from startup (an absent slot means no mutation ever
ran, so the history is still empty), and a malformed slot makes the load
reset the store to the empty history; `loadHistoryFromStorage` is a total
function, so no failure reaches the caller. -/
theorem claim7_load_absent_or_malformed :
    (∀ ops : List HistoryOp, (applyOps initState ops).storage = none →
      (loadHistoryFromStorage (applyOps initState ops)).calculationHistory = []) ∧
    (∀ s : AppState, s.storage = some StoredValue.malformed →
      loadHistoryFromStorage s = setHistory [] s ∧
      (loadHistoryFromStorage s).calculationHistory = []) := by
  constructor
  · intro ops h
    have h2 := applyOps_storage_none ops h
    simp [loadHistoryFromStorage, h, h2]
  · intro s hs
    refine ⟨?_, ?_⟩
    · simp [loadHistoryFromStorage, hs, parseHistory]
    · simp [loadHistoryFromStorage, hs, parseHistory, setHistory]

/-- Witness for C7: the empty operation sequence (slot absent at startup)
and a concrete state with a malformed slot. -/
theorem claim7_witness :
    (loadHistoryFromStorage (applyOps initState [])).calculationHistory = [] ∧
    (loadHistoryFromStorage
      { initState with storage := some StoredValue.malformed }).calculationHistory = [] :=
  ⟨claim7_load_absent_or_malformed.1 [] rfl,
   (claim7_load_absent_or_malformed.2
      { initState with storage := some StoredValue.malformed } rfl).2⟩

/-- C8: for every prior state, `clearHistory` replaces the history with
the empty sequence. -/
theorem claim8_clear_empties (s : AppState) :
    (clearHistory s).calculationHistory = [] := rfl

/-- C9: for every valid input with a negative compound frequency,
`calculate` does not reject and the result is as in the frequency-0 case:
`compoundDetail.interest = 0` and `compoundDetail.total = totalSimple`;
the exponentiation branch is never reached, so the outcome does not
depend on the power function at all. -/
theorem claim9_negative_frequency
    (powFn powFn2 : ℚ → ℚ → ℚ) (now : ℤ) (s : AppState) (p r t : ℚ)
    (hp : s.principal = some p) (hr : s.rate = some r) (ht : s.time = some t)
    (hp0 : 0 < p) (hr0 : 0 < r) (ht0 : 0 < t)
    (hn : s.compoundFrequency < 0) :
    (calculate powFn now s).calculationResult =
      some (computeResult powFn now p r t s.timeUnit s.compoundFrequency) ∧
    (computeResult powFn now p r t s.timeUnit s.compoundFrequency).compoundDetail.interest
      = 0 ∧
    (computeResult powFn now p r t s.timeUnit s.compoundFrequency).compoundDetail.total =
      (computeResult powFn now p r t s.timeUnit s.compoundFrequency).totalSimple ∧
    calculate powFn now s = calculate powFn2 now s := by
  have hle : ¬ (0 < s.compoundFrequency) := not_lt.mpr (le_of_lt hn)
  have hres : computeResult powFn now p r t s.timeUnit s.compoundFrequency =
      computeResult powFn2 now p r t s.timeUnit s.compoundFrequency := by
    simp [computeResult, hle]
  refine ⟨calculate_result_of_valid powFn now s p r t hp hr ht hp0 hr0 ht0, ?_, ?_, ?_⟩
  · simp [computeResult, hle]
  · simp [computeResult, hle]
  · rw [calculate_of_valid powFn now s p r t hp hr ht hp0 hr0 ht0,
      calculate_of_valid powFn2 now s p r t hp hr ht hp0 hr0 ht0, hres]

/-- Witness for C9 with frequency -1 and two different power functions. -/
theorem claim9_witness :
    (calculate (fun a b => a * b) 0
        { initState with compoundFrequency := -1 }).calculationResult =
      some (computeResult (fun a b => a * b) 0 10000 5 10
        { initState with compoundFrequency := -1 }.timeUnit
        { initState with compoundFrequency := -1 }.compoundFrequency) ∧
    (computeResult (fun a b => a * b) 0 10000 5 10
        { initState with compoundFrequency := -1 }.timeUnit
        { initState with compoundFrequency := -1 }.compoundFrequency).compoundDetail.interest
      = 0 ∧
    (computeResult (fun a b => a * b) 0 10000 5 10
        { initState with compoundFrequency := -1 }.timeUnit
        { initState with compoundFrequency := -1 }.compoundFrequency).compoundDetail.total =
      (computeResult (fun a b => a * b) 0 10000 5 10
        { initState with compoundFrequency := -1 }.timeUnit
        { initState with compoundFrequency := -1 }.compoundFrequency).totalSimple ∧
    calculate (fun a b => a * b) 0 { initState with compoundFrequency := -1 } =
      calculate (fun a b => a + b) 0 { initState with compoundFrequency := -1 } :=
  claim9_negative_frequency (fun a b => a * b) (fun a b => a + b) 0
    { initState with compoundFrequency := -1 } 10000 5 10 rfl rfl rfl
    (by norm_num) (by norm_num) (by norm_num) (by norm_num)

/-- C10: when `calculate` rejects an input, every piece of state keeps its
prior value: the calculation result, the history, the storage slot and
the loading flag (indeed the whole state is unchanged). -/
theorem claim10_rejection_no_side_effects
    (powFn : ℚ → ℚ → ℚ) (now : ℤ) (s : AppState)
    (h : rejectsInput s = true) :
    (calculate powFn now s).calculationResult = s.calculationResult ∧
    (calculate powFn now s).calculationHistory = s.calculationHistory ∧
    (calculate powFn now s).storage = s.storage ∧
    (calculate powFn now s).isLoading = s.isLoading := by
  rw [calculate_of_rejects powFn now s h]
  exact ⟨rfl, rfl, rfl, rfl⟩

/-- Witness for C10 at a state with the time input absent. -/
theorem claim10_witness :
    (calculate (fun a b => a * b) 0
        { initState with time := none }).calculationResult =
      { initState with time := none }.calculationResult ∧
    (calculate (fun a b => a * b) 0
        { initState with time := none }).calculationHistory =
      { initState with time := none }.calculationHistory ∧
    (calculate (fun a b => a * b) 0 { initState with time := none }).storage =
      { initState with time := none }.storage ∧
    (calculate (fun a b => a * b) 0 { initState with time := none }).isLoading =
      { initState with time := none }.isLoading :=
  claim10_rejection_no_side_effects (fun a b => a * b) 0
    { initState with time := none } (by decide)
